import Mathlib

/-!
Verification development for the starkpulse-web backend core:

* the sparse time-series performance evaluator
  (apps/backend/src/portfolio/utils/portfolio-performance.utils.ts),
* the daily aggregation pipeline
  (apps/backend/src/snapshot/snapshot.repository.ts and snapshot.generator.ts),
* the portfolio snapshot recorder (PortfolioService.createSnapshot).

Modelling conventions.  JavaScript `Date` values are epoch milliseconds
(`ℤ`); a UTC calendar day spans 86400000 ms, and `Date.UTC(y,m,d)` built
from the UTC components of `d` is the largest multiple of 86400000 not
exceeding `d`.  JavaScript numbers are modelled as `ℚ`; decimal strings
that the code immediately feeds to `parseFloat` are modelled by the
rational they denote.  `Number.prototype.toFixed(n)` followed by
`parseFloat` is modelled by rounding to `n` decimal digits with ties
rounded up, which is the rounding the ECMAScript specification gives
`toFixed`.  SQL `NULL` and TypeScript `null` are `Option.none`.
-/

/- ----------------------------------------------------------------- -/
/- Performance evaluator: data model                                  -/
/- ----------------------------------------------------------------- -/

/-- One entry of `SnapshotData.assetBalances`.  `amount` is kept as the
rational value of the stored decimal string; it is never used in the
performance computations. -/
structure AssetBalance where
  assetCode : String
  assetIssuer : Option String
  amount : ℚ
  valueUsd : ℚ
deriving DecidableEq, Repr

/-- `SnapshotData` of portfolio-performance.utils.ts.  `createdAt` is epoch
milliseconds; `totalValueUsd` is the rational value `parseFloat` extracts
from the stored decimal string. -/
structure SnapshotData where
  id : String
  userId : String
  createdAt : ℤ
  assetBalances : List AssetBalance
  totalValueUsd : ℚ
deriving DecidableEq, Repr

/-- `PerformanceWindowConfig`: a named trailing window with its lookback in
hours. -/
structure PerformanceWindowConfig where
  window : String
  hours : ℤ
deriving DecidableEq, Repr

/-- The three configured windows, in configuration order. -/
def PERFORMANCE_WINDOWS : List PerformanceWindowConfig :=
  [⟨"24h", 24⟩, ⟨"7d", 24 * 7⟩, ⟨"30d", 24 * 30⟩]

/-- `calculateBaselineDate`: `setHours(getHours() - hours)` shifts the
instant back by exactly `hours` hours (fixed-offset clock). -/
def calculateBaselineDate (now : ℤ) (hours : ℤ) : ℤ :=
  now - hours * 3600000

/-- `parseFloat(x.toFixed(digits))`: round to `digits` decimal places,
ties up. -/
def toFixedRound (digits : ℕ) (q : ℚ) : ℚ :=
  (round (q * 10 ^ digits) : ℤ) / 10 ^ digits

/-- `TimeWindowPerformanceDto`: the per-window result record. -/
structure TimeWindowPerformanceDto where
  window : String
  hasData : Bool
  absolutePnl : Option ℚ
  percentageChange : Option ℚ
  currentValueUsd : ℚ
  baselineValueUsd : Option ℚ
  baselineDate : Option ℤ
deriving DecidableEq, Repr

/- ----------------------------------------------------------------- -/
/- Performance evaluator: operations                                  -/
/- ----------------------------------------------------------------- -/

/-- Stable insertion of one snapshot into a list already sorted by
`createdAt` ascending: the new element goes after every element whose
`createdAt` is less than or equal to its own, exactly where the stable
comparator sort of the source places it. -/
def insertByCreatedAt (x : SnapshotData) : List SnapshotData → List SnapshotData
  | [] => [x]
  | y :: ys =>
    if y.createdAt ≤ x.createdAt then y :: insertByCreatedAt x ys
    else x :: y :: ys

/-- `[...snapshots].sort((a, b) => a.createdAt - b.createdAt)`: a stable
sort by `createdAt` ascending, processing the input left to right. -/
def sortByCreatedAt (l : List SnapshotData) : List SnapshotData :=
  l.foldl (fun acc x => insertByCreatedAt x acc) []

/-- `diff < minDiff` where `minDiff` starts as `Infinity` (`none`). -/
def diffLtMin (d : ℤ) : Option ℤ → Bool
  | none => true
  | some m => decide (d < m)

/-- The scan loop of `findClosestSnapshot`: state is
`(closestSnapshot, minDiff)`; a snapshot is taken when it is at or before
the target and its absolute distance beats the current minimum. -/
def scanClosest (t : ℤ) (st : Option SnapshotData × Option ℤ) :
    List SnapshotData → Option SnapshotData × Option ℤ
  | [] => st
  | s :: rest =>
    if s.createdAt ≤ t ∧ diffLtMin |s.createdAt - t| st.2 = true then
      scanClosest t (some s, some |s.createdAt - t|) rest
    else
      scanClosest t st rest

/-- `findClosestSnapshot`: sort a copy of the input by `createdAt`
ascending, then scan for the eligible snapshot of minimal distance to the
target. -/
def findClosestSnapshot (snapshots : List SnapshotData) (targetDate : ℤ) :
    Option SnapshotData :=
  if snapshots.length = 0 then none
  else (scanClosest targetDate (none, none) (sortByCreatedAt snapshots)).1

/-- `calculateWindowPerformance`: derive the PnL metrics for one window
from the selected baseline, or an all-null record when there is none. -/
def calculateWindowPerformance (currentValue : ℚ)
    (baselineSnapshot : Option SnapshotData)
    (windowConfig : PerformanceWindowConfig) : TimeWindowPerformanceDto :=
  match baselineSnapshot with
  | none =>
    { window := windowConfig.window
      hasData := false
      absolutePnl := none
      percentageChange := none
      currentValueUsd := currentValue
      baselineValueUsd := none
      baselineDate := none }
  | some b =>
    let baselineValue := b.totalValueUsd
    let absolutePnl := currentValue - baselineValue
    let percentageChange :=
      if baselineValue ≠ 0 then absolutePnl / baselineValue * 100 else 0
    { window := windowConfig.window
      hasData := true
      absolutePnl := some (toFixedRound 2 absolutePnl)
      percentageChange := some (toFixedRound 4 percentageChange)
      currentValueUsd := currentValue
      baselineValueUsd := some baselineValue
      baselineDate := some b.createdAt }

/-- `PortfolioPerformanceResponseDto`. -/
structure PortfolioPerformanceResponseDto where
  userId : String
  currentValueUsd : ℚ
  calculatedAt : ℤ
  windows : List TimeWindowPerformanceDto
deriving DecidableEq, Repr

/-- `calculatePortfolioPerformance`: one window result per configured
window, each against the closest at-or-before baseline. -/
def calculatePortfolioPerformance (userId : String) (currentValueUsd : ℚ)
    (snapshots : List SnapshotData) (now : ℤ) :
    PortfolioPerformanceResponseDto :=
  { userId := userId
    currentValueUsd := currentValueUsd
    calculatedAt := now
    windows := PERFORMANCE_WINDOWS.map fun config =>
      calculateWindowPerformance currentValueUsd
        (findClosestSnapshot snapshots (calculateBaselineDate now config.hours))
        config }

/- ----------------------------------------------------------------- -/
/- Heap model for the frame property                                  -/
/- ----------------------------------------------------------------- -/

/-- A tiny heap of snapshot arrays: addresses are indices, reading an
unallocated address gives the empty array. -/
def heapGet (h : List (List SnapshotData)) (a : ℕ) : List SnapshotData :=
  (h[a]?).getD []

/-- `findClosestSnapshot` with the caller's array living on a heap: the
body first materialises the spread copy `[...snapshots]` at a fresh
address, then sorts that copy in place, and scans the sorted copy. -/
def findClosestSnapshotInPlace (h : List (List SnapshotData)) (a : ℕ)
    (targetDate : ℤ) : List (List SnapshotData) × Option SnapshotData :=
  let snapshots := heapGet h a
  if snapshots.length = 0 then (h, none)
  else
    let h1 := h ++ [snapshots]
    let b := h.length
    let h2 := h1.set b (sortByCreatedAt (heapGet h1 b))
    (h2, (scanClosest targetDate (none, none) (heapGet h2 b)).1)

/- ----------------------------------------------------------------- -/
/- Daily aggregation pipeline                                         -/
/- ----------------------------------------------------------------- -/

/-- One raw row of the sentiment_signals table: a nullable asset symbol,
a sentiment score, a nullable volume, and the event instant in epoch
milliseconds. -/
structure RawSignal where
  assetSymbol : Option String
  sentimentScore : ℚ
  volume : Option ℚ
  signalTimestamp : ℤ
deriving DecidableEq, Repr

/-- The UTC calendar day an instant falls on, as a day index
(`DATE(signal_timestamp AT TIME ZONE a_utc_zone)` and `toDateString`). -/
def utcDayOf (ms : ℤ) : ℤ := ms.ediv 86400000

/-- `Date.UTC(getUTCFullYear(), getUTCMonth(), getUTCDate())`: the UTC
midnight at or before the instant. -/
def toUtcMidnight (d : ℤ) : ℤ := d - d % 86400000

/-- `SUM(sentiment_score)` over a group (no NULL scores in the model). -/
def sumScores (rows : List RawSignal) : ℚ :=
  (rows.map (fun r => r.sentimentScore)).sum

/-- The non-NULL volumes of a group, in row order. -/
def volumeTerms (rows : List RawSignal) : List ℚ :=
  rows.filterMap (fun r => r.volume)

/-- `SUM(volume)`: SQL SUM skips NULL inputs and is NULL when every input
is NULL. -/
def sumVolume (rows : List RawSignal) : Option ℚ :=
  if (volumeTerms rows).isEmpty then none else some (volumeTerms rows).sum

/-- The non-NULL products `sentiment_score * volume` of a group, in row
order: a row with NULL volume contributes NULL, which SUM skips. -/
def weightTerms (rows : List RawSignal) : List ℚ :=
  rows.filterMap (fun r => r.volume.map (fun v => r.sentimentScore * v))

/-- `CASE WHEN SUM(volume) > 0 THEN SUM(sentiment_score*volume)/SUM(volume)
ELSE NULL END`. -/
def volumeWeighted (rows : List RawSignal) : Option ℚ :=
  match sumVolume rows with
  | none => none
  | some tv => if 0 < tv then some ((weightTerms rows).sum / tv) else none

/-- `AssetAggregation` as `parseRow` produces it.  `avgSentiment` is
`Option ℚ`: `none` stands for the SQL NULL an empty global aggregate
emits (which the TS layer parses to NaN). -/
structure AssetAggregation where
  assetSymbol : Option String
  avgSentiment : Option ℚ
  minSentiment : Option ℚ
  maxSentiment : Option ℚ
  signalCount : ℕ
  totalVolume : Option ℚ
  volumeWeightedSentiment : Option ℚ
deriving DecidableEq, Repr

/-- One aggregate row over one group of raw rows, per the SQL select
list: AVG, MIN, MAX, COUNT, SUM(volume) and the guarded weighted
average. -/
def aggregateGroup (key : Option String) (rows : List RawSignal) :
    AssetAggregation :=
  { assetSymbol := key
    avgSentiment :=
      if rows.length = 0 then none else some (sumScores rows / rows.length)
    minSentiment := (rows.map (fun r => r.sentimentScore)).min?
    maxSentiment := (rows.map (fun r => r.sentimentScore)).max?
    signalCount := rows.length
    totalVolume := sumVolume rows
    volumeWeightedSentiment := volumeWeighted rows }

/-- The distinct non-NULL asset symbols of the day (`GROUP BY
asset_symbol` under `asset_symbol IS NOT NULL`). -/
def distinctKeys (rows : List RawSignal) : List String :=
  (rows.filterMap (fun r => r.assetSymbol)).dedup

/-- `aggregateForDate`: the per-asset grouped aggregation `UNION ALL` one
ungrouped global aggregate over the day.  An ungrouped SQL aggregate
yields exactly one row even over an empty input, so the global row is
always present. -/
def aggregateForDate (signals : List RawSignal) (utcDate : ℤ) :
    List AssetAggregation :=
  let dayRows :=
    signals.filter (fun r => decide (utcDayOf r.signalTimestamp = utcDayOf utcDate))
  let perAsset := (distinctKeys dayRows).map fun k =>
    aggregateGroup (some k)
      (dayRows.filter (fun r => decide (r.assetSymbol = some k)))
  perAsset ++ [aggregateGroup none dayRows]

/-- One keyed write of the batch: `INSERT ... ON CONFLICT (snapshot_date,
asset_symbol) DO UPDATE` against the plain unique index
`UQ_daily_snapshots_date_asset`.  A stored row is the snapshot date
paired with the statistic columns (`id` and the wall-clock audit
timestamps are outside the model).  PostgreSQL unique indexes treat
NULLs as distinct (the index declares no NULLS NOT DISTINCT), so an
inserted row with `asset_symbol IS NULL` — the global row — never
conflicts with an existing row and is always appended anew; only a
non-NULL key can conflict with an existing row for the same date, in
which case its statistic columns are overwritten in place. -/
def upsertRow (store : List (ℤ × AssetAggregation)) (d : ℤ)
    (agg : AssetAggregation) : List (ℤ × AssetAggregation) :=
  if agg.assetSymbol ≠ none ∧
      (store.any fun r => decide (r.1 = d ∧ r.2.assetSymbol = agg.assetSymbol)) = true then
    store.map fun r =>
      if r.1 = d ∧ r.2.assetSymbol = agg.assetSymbol then (d, agg) else r
  else
    store ++ [(d, agg)]

/-- `upsertSnapshots`: empty batches short-circuit to 0; otherwise every
row is written through the `(snapshot_date, asset_symbol)`-keyed upsert
and the batch size is returned. -/
def upsertSnapshots (store : List (ℤ × AssetAggregation)) (utcDate : ℤ)
    (aggs : List AssetAggregation) : List (ℤ × AssetAggregation) × ℕ :=
  if aggs.length = 0 then (store, 0)
  else (aggs.foldl (fun st a => upsertRow st utcDate a) store, aggs.length)

/-- `SnapshotRunResult` without `durationMs` (wall-clock time is outside
the model). -/
structure SnapshotRunResult where
  date : ℤ
  assetRowsWritten : ℕ
  globalRowWritten : Bool
deriving DecidableEq, Repr

/-- `generateForDate`: normalize to UTC midnight, aggregate, skip the
write when the aggregation is empty, else upsert the whole batch and
report the asset/global split. -/
def generateForDate (store : List (ℤ × AssetAggregation))
    (signals : List RawSignal) (date : ℤ) :
    List (ℤ × AssetAggregation) × SnapshotRunResult :=
  let utcDate := toUtcMidnight date
  let aggregations := aggregateForDate signals utcDate
  if aggregations.length = 0 then
    (store, ⟨utcDate, 0, false⟩)
  else
    let globalRow := aggregations.find? fun a => decide (a.assetSymbol = none)
    let assetRows := aggregations.filter fun a => decide (a.assetSymbol ≠ none)
    ((upsertSnapshots store utcDate aggregations).1,
      ⟨utcDate, assetRows.length, globalRow.isSome⟩)

/-- The backfill loop, fuelled by the number of days still to process:
each step runs `generateForDate` on the cursor day and advances the
cursor by one day. -/
def backfillAux (signals : List RawSignal) :
    ℕ → List (ℤ × AssetAggregation) → ℤ →
      List (ℤ × AssetAggregation) × List SnapshotRunResult
  | 0, store, _ => (store, [])
  | n + 1, store, cursor =>
    let step := generateForDate store signals cursor
    let rest := backfillAux signals n step.1 (cursor + 86400000)
    (rest.1, step.2 :: rest.2)

/-- `backfill`: both bounds normalized to UTC midnight; the while loop
`cursor <= end` runs once per calendar day of the inclusive range, not
at all when the normalized start exceeds the normalized end. -/
def backfill (store : List (ℤ × AssetAggregation)) (signals : List RawSignal)
    (fromDate toDate : ℤ) :
    List (ℤ × AssetAggregation) × List SnapshotRunResult :=
  backfillAux signals
    (if toUtcMidnight fromDate ≤ toUtcMidnight toDate then
      ((toUtcMidnight toDate - toUtcMidnight fromDate) / 86400000).toNat + 1
    else 0)
    store (toUtcMidnight fromDate)

/- ----------------------------------------------------------------- -/
/- Portfolio snapshot recorder (PortfolioService.createSnapshot)      -/
/- ----------------------------------------------------------------- -/

/-- One balance line returned by the ledger network, with the balance
string replaced by its numeric value. -/
structure StellarBalance where
  assetCode : String
  assetIssuer : Option String
  balance : ℚ
deriving DecidableEq, Repr

/-- One row of the portfolio_assets fallback table. -/
structure PortfolioAssetRow where
  userId : String
  assetCode : String
  assetIssuer : Option String
  amount : ℚ
deriving DecidableEq, Repr

/-- Outcome of `getAccountBalances`: a balance list, or any thrown
failure (network error, not-found on the ledger, timeout). -/
inductive FetchOutcome where
  | ok (balances : List StellarBalance)
  | failed
deriving DecidableEq, Repr

/-- The world `createSnapshot` runs against for one account: whether the
user row exists, what the ledger fetch does, and the fallback table. -/
structure PortfolioEnv where
  userFound : Bool
  stellar : FetchOutcome
  fallbackAssets : List PortfolioAssetRow
deriving DecidableEq, Repr

/-- `getAssetValueUsd` with its hard-coded mock price table; unknown
assets price at 0. -/
def getAssetValueUsd (assetCode : String) (assetIssuer : Option String)
    (amount : ℚ) : ℚ :=
  amount *
    (if assetCode = "XLM" then 12 / 100
     else if assetCode = "USDC" then 1
     else if assetCode = "BTC" then 45000
     else 0)

/-- A persisted portfolio snapshot row (`id`/`createdAt` are assigned by
the store and outside the model); `totalValueUsd` is the value of the
`toFixed(2)` string. -/
structure SavedSnapshot where
  userId : String
  assetBalances : List AssetBalance
  totalValueUsd : ℚ
deriving DecidableEq, Repr

/-- The balance-mapping loop over live ledger balances. -/
def balancesFromStellar (bs : List StellarBalance) : List AssetBalance :=
  bs.map fun b =>
    ⟨b.assetCode, b.assetIssuer, b.balance,
      getAssetValueUsd b.assetCode b.assetIssuer b.balance⟩

/-- The balance-mapping loop over fallback portfolio_assets rows. -/
def balancesFromFallback (assets : List PortfolioAssetRow) : List AssetBalance :=
  assets.map fun a =>
    ⟨a.assetCode, a.assetIssuer, a.amount,
      getAssetValueUsd a.assetCode a.assetIssuer a.amount⟩

/-- The running `totalValueUsd` accumulator. -/
def totalOf (l : List AssetBalance) : ℚ := (l.map (fun b => b.valueUsd)).sum

/-- The observation `createSnapshot` persists on the fallback path:
holdings read from the fallback table for this account, priced the same
way as live holdings. -/
def fallbackObservation (env : PortfolioEnv) (userId : String) : SavedSnapshot :=
  ⟨userId,
    balancesFromFallback (env.fallbackAssets.filter fun a => decide (a.userId = userId)),
    toFixedRound 2 (totalOf (balancesFromFallback
      (env.fallbackAssets.filter fun a => decide (a.userId = userId))))⟩

/-- `PortfolioService.createSnapshot`: missing user throws not-found
(modelled as `none`, no store append); otherwise holdings come from the
ledger, or from the fallback table when the fetch throws, and one
snapshot is appended and returned. -/
def createSnapshot (store : List SavedSnapshot) (env : PortfolioEnv)
    (userId : String) : List SavedSnapshot × Option SavedSnapshot :=
  if env.userFound = false then (store, none)
  else
    let balances :=
      match env.stellar with
      | FetchOutcome.ok bs => balancesFromStellar bs
      | FetchOutcome.failed =>
        balancesFromFallback (env.fallbackAssets.filter fun a => decide (a.userId = userId))
    (store ++ [⟨userId, balances, toFixedRound 2 (totalOf balances)⟩],
      some ⟨userId, balances, toFixedRound 2 (totalOf balances)⟩)

/- Concrete data used by witnesses, the counterexample and the
   scenario conjuncts. -/

def wSnapA : SnapshotData := ⟨"a", "u", 50, [], 80⟩
def wSnapB : SnapshotData := ⟨"b", "u", 150, [], 90⟩

def tieA : SnapshotData := ⟨"a", "u", 100, [], 80⟩
def tieB : SnapshotData := ⟨"b", "u", 100, [], 90⟩

def noDataW24 : TimeWindowPerformanceDto := ⟨"24h", false, none, none, 5, none, none⟩

def demoBase : SnapshotData := ⟨"1", "u", 3600000, [], 100⟩

def demoW24 : TimeWindowPerformanceDto :=
  calculateWindowPerformance 150
    (findClosestSnapshot [demoBase] (calculateBaselineDate 90000000 24)) ⟨"24h", 24⟩

def cexRows : List RawSignal :=
  [⟨some "BTC", 1, some 3, 0⟩, ⟨some "BTC", 1, some (-5), 0⟩]

def btcScenario : List RawSignal :=
  [⟨some "BTC", 1/2, some 10, 1718409600000⟩,
   ⟨some "BTC", 7/10, some 20, 1718409600000⟩,
   ⟨some "BTC", 9/10, some 30, 1718409600000⟩]

/- ----------------------------------------------------------------- -/
/- Helper lemmas                                                      -/
/- ----------------------------------------------------------------- -/

/-- Loop invariant of the scan: the running state is either still the
initial `(none, Infinity)` pair or holds an eligible snapshot together
with its distance to the target. -/
def StLink (t : ℤ) (st : Option SnapshotData × Option ℤ) : Prop :=
  st = (none, none) ∨
    ∃ s, st.1 = some s ∧ s.createdAt ≤ t ∧ st.2 = some (t - s.createdAt)

lemma abs_sub_eligible (c t : ℤ) (h : c ≤ t) : |c - t| = t - c := by
  rw [abs_sub_comm, abs_of_nonneg (by linarith)]

lemma scan_link (t : ℤ) (l : List SnapshotData) :
    ∀ st, StLink t st → StLink t (scanClosest t st l) := by
  induction l with
  | nil => intro st h; exact h
  | cons x rest ih =>
    intro st h
    by_cases hc : x.createdAt ≤ t ∧ diffLtMin |x.createdAt - t| st.2 = true
    · simp only [scanClosest, if_pos hc]
      refine ih _ (Or.inr ⟨x, rfl, hc.1, ?_⟩)
      simp [abs_sub_eligible x.createdAt t hc.1]
    · simp only [scanClosest, if_neg hc]
      exact ih st h

lemma scan_mem (t : ℤ) (l : List SnapshotData) :
    ∀ st s, (scanClosest t st l).1 = some s → st.1 = some s ∨ s ∈ l := by
  induction l with
  | nil => intro st s h; exact Or.inl h
  | cons x rest ih =>
    intro st s h
    by_cases hc : x.createdAt ≤ t ∧ diffLtMin |x.createdAt - t| st.2 = true
    · simp only [scanClosest, if_pos hc] at h
      rcases ih _ s h with h1 | h2
      · simp only [Option.some_inj] at h1
        exact Or.inr (h1 ▸ List.mem_cons_self x rest)
      · exact Or.inr (List.mem_cons_of_mem x h2)
    · simp only [scanClosest, if_neg hc] at h
      rcases ih st s h with h1 | h2
      · exact Or.inl h1
      · exact Or.inr (List.mem_cons_of_mem x h2)

lemma scan_ge (t : ℤ) (l : List SnapshotData) :
    ∀ st s0, StLink t st → st.1 = some s0 →
      ∃ s, (scanClosest t st l).1 = some s ∧ s0.createdAt ≤ s.createdAt := by
  induction l with
  | nil => intro st s0 _ h0; exact ⟨s0, h0, le_refl _⟩
  | cons x rest ih =>
    intro st s0 hlink h0
    by_cases hc : x.createdAt ≤ t ∧ diffLtMin |x.createdAt - t| st.2 = true
    · simp only [scanClosest, if_pos hc]
      have hlink2 : StLink t ((some x : Option SnapshotData), some |x.createdAt - t|) := by
        refine Or.inr ⟨x, rfl, hc.1, ?_⟩
        simp [abs_sub_eligible x.createdAt t hc.1]
      obtain ⟨s, hs, hxs⟩ := ih _ x hlink2 rfl
      rcases hlink with h1 | ⟨s1, hs1, hs1t, hm⟩
      · rw [h1] at h0; simp at h0
      · have : s1 = s0 := by rw [h0] at hs1; exact (Option.some_inj.mp hs1).symm
        subst this
        have hd : diffLtMin |x.createdAt - t| st.2 = true := hc.2
        rw [hm] at hd
        simp only [diffLtMin, decide_eq_true_eq] at hd
        rw [abs_sub_eligible x.createdAt t hc.1] at hd
        exact ⟨s, hs, le_trans (by linarith) hxs⟩
    · simp only [scanClosest, if_neg hc]
      exact ih st s0 hlink h0

lemma scan_found (t : ℤ) (l : List SnapshotData) :
    ∀ st, StLink t st → ∀ u, u ∈ l → u.createdAt ≤ t →
      ∃ s, (scanClosest t st l).1 = some s ∧ u.createdAt ≤ s.createdAt := by
  induction l with
  | nil => intro st _ u hu; exact absurd hu (List.not_mem_nil u)
  | cons x rest ih =>
    intro st hlink u hu hut
    by_cases hc : x.createdAt ≤ t ∧ diffLtMin |x.createdAt - t| st.2 = true
    · simp only [scanClosest, if_pos hc]
      have hlink2 : StLink t ((some x : Option SnapshotData), some |x.createdAt - t|) := by
        refine Or.inr ⟨x, rfl, hc.1, ?_⟩
        simp [abs_sub_eligible x.createdAt t hc.1]
      rcases List.mem_cons.mp hu with h1 | h2
      · subst h1
        exact scan_ge t rest _ u hlink2 rfl
      · exact ih _ hlink2 u h2 hut
    · simp only [scanClosest, if_neg hc]
      rcases List.mem_cons.mp hu with h1 | h2
      · subst h1
        have hd : diffLtMin |u.createdAt - t| st.2 = false := by
          rcases Bool.eq_false_or_eq_true (diffLtMin |u.createdAt - t| st.2) with ht2 | hf
          · exact absurd ⟨hut, ht2⟩ hc
          · exact hf
        rcases hlink with h1 | ⟨s1, hs1, hs1t, hm⟩
        · rw [h1] at hd; simp [diffLtMin] at hd
        · rw [hm] at hd
          simp only [diffLtMin, decide_eq_false_iff_not, not_lt] at hd
          rw [abs_sub_eligible u.createdAt t hut] at hd
          obtain ⟨s, hs, hges⟩ := scan_ge t rest st s1 (Or.inr ⟨s1, hs1, hs1t, hm⟩) hs1
          exact ⟨s, hs, le_trans (by linarith) hges⟩
      · exact ih st hlink u h2 hut

lemma mem_insertByCreatedAt (x a : SnapshotData) (l : List SnapshotData) :
    a ∈ insertByCreatedAt x l ↔ a = x ∨ a ∈ l := by
  induction l with
  | nil => simp [insertByCreatedAt]
  | cons y ys ih =>
    simp only [insertByCreatedAt]
    by_cases h : y.createdAt ≤ x.createdAt
    · rw [if_pos h]
      simp only [List.mem_cons, ih]
      tauto
    · rw [if_neg h]
      simp only [List.mem_cons]

lemma mem_sortFold (a : SnapshotData) :
    ∀ (l acc : List SnapshotData),
      a ∈ l.foldl (fun acc x => insertByCreatedAt x acc) acc ↔ a ∈ l ∨ a ∈ acc := by
  intro l
  induction l with
  | nil => intro acc; simp
  | cons x xs ih =>
    intro acc
    simp only [List.foldl_cons, ih, mem_insertByCreatedAt, List.mem_cons]
    tauto

lemma mem_sortByCreatedAt (a : SnapshotData) (l : List SnapshotData) :
    a ∈ sortByCreatedAt l ↔ a ∈ l := by
  unfold sortByCreatedAt
  rw [mem_sortFold]
  simp

lemma findClosest_sound (snapshots : List SnapshotData) (t : ℤ) (s : SnapshotData)
    (h : findClosestSnapshot snapshots t = some s) :
    s ∈ snapshots ∧ s.createdAt ≤ t := by
  unfold findClosestSnapshot at h
  by_cases hl : snapshots.length = 0
  · rw [if_pos hl] at h; exact absurd h (by simp)
  · rw [if_neg hl] at h
    constructor
    · rcases scan_mem t (sortByCreatedAt snapshots) (none, none) s h with h1 | h2
      · exact absurd h1 (by simp)
      · exact (mem_sortByCreatedAt s snapshots).mp h2
    · have hlink := scan_link t (sortByCreatedAt snapshots) (none, none) (Or.inl rfl)
      rcases hlink with h1 | ⟨s1, hs1, hs1t, _⟩
      · rw [h1] at h; exact absurd h (by simp)
      · rw [h] at hs1
        rw [(Option.some_inj.mp hs1).symm] at hs1t
        exact hs1t

lemma findClosest_max (snapshots : List SnapshotData) (t : ℤ) (u : SnapshotData)
    (hu : u ∈ snapshots) (hut : u.createdAt ≤ t) :
    ∃ s, findClosestSnapshot snapshots t = some s ∧ u.createdAt ≤ s.createdAt := by
  unfold findClosestSnapshot
  by_cases hl : snapshots.length = 0
  · rw [List.length_eq_zero] at hl; subst hl; exact absurd hu (List.not_mem_nil u)
  · rw [if_neg hl]
    exact scan_found t (sortByCreatedAt snapshots) (none, none) (Or.inl rfl) u
      ((mem_sortByCreatedAt u snapshots).mpr hu) hut

lemma toFixedRound_zero (d : ℕ) : toFixedRound d 0 = 0 := by
  simp [toFixedRound]

lemma toFixedRound_int (d : ℕ) (n : ℤ) : toFixedRound d (n : ℚ) = n := by
  unfold toFixedRound
  have h : ((n : ℚ) * 10 ^ d) = ((n * 10 ^ d : ℤ) : ℚ) := by push_cast; ring
  rw [h, round_intCast]
  push_cast
  field_simp

lemma heapGet_append_fresh (h : List (List SnapshotData)) (v : List SnapshotData) :
    heapGet (h ++ [v]) h.length = v := by
  unfold heapGet
  rw [List.getElem?_append_right (le_refl _)]
  simp

lemma generateForDate_result_eq (store : List (ℤ × AssetAggregation))
    (signals : List RawSignal) (date : ℤ) :
    (generateForDate store signals date).2 =
      if (aggregateForDate signals (toUtcMidnight date)).length = 0 then
        ⟨toUtcMidnight date, 0, false⟩
      else
        ⟨toUtcMidnight date,
          ((aggregateForDate signals (toUtcMidnight date)).filter
            (fun a => decide (a.assetSymbol ≠ none))).length,
          ((aggregateForDate signals (toUtcMidnight date)).find?
            (fun a => decide (a.assetSymbol = none))).isSome⟩ := by
  unfold generateForDate
  by_cases h : (aggregateForDate signals (toUtcMidnight date)).length = 0
  · rw [if_pos h, if_pos h]
  · rw [if_neg h, if_neg h]

lemma toUtcMidnight_emod (d : ℤ) : toUtcMidnight d % 86400000 = 0 := by
  unfold toUtcMidnight
  rw [Int.sub_emod, Int.emod_emod_of_dvd d dvd_rfl, sub_self, Int.zero_emod]

lemma generateForDate_date (store : List (ℤ × AssetAggregation))
    (signals : List RawSignal) (d : ℤ) :
    (generateForDate store signals d).2.date = toUtcMidnight d := by
  rw [generateForDate_result_eq]
  split <;> rfl

lemma backfillAux_dates (signals : List RawSignal) :
    ∀ (n : ℕ) (store : List (ℤ × AssetAggregation)) (c : ℤ),
      c % 86400000 = 0 →
      (backfillAux signals n store c).2.map (fun r => r.date) =
        (List.range n).map (fun i : ℕ => c + (i : ℤ) * 86400000) := by
  intro n
  induction n with
  | zero => intro store c _; rfl
  | succ m ih =>
    intro store c hc
    simp only [backfillAux, List.map_cons]
    rw [List.range_succ_eq_map, List.map_cons, List.map_map]
    congr 1
    · rw [generateForDate_date]
      unfold toUtcMidnight
      omega
    · rw [ih _ (c + 86400000) (by omega)]
      apply List.map_congr_left
      intro i _
      simp only [Function.comp]
      push_cast
      ring

lemma btc_dayRows :
    List.filter (fun r => decide (utcDayOf r.signalTimestamp = utcDayOf 1718409600000))
      btcScenario = btcScenario := by
  simp [btcScenario]

lemma btc_keys : distinctKeys btcScenario = ["BTC"] := by
  decide

lemma btc_keyFilter :
    List.filter (fun r => decide (r.assetSymbol = some "BTC")) btcScenario = btcScenario := by
  simp [btcScenario]

lemma btc_head :
    (aggregateForDate btcScenario 1718409600000).head? =
      some (aggregateGroup (some "BTC") btcScenario) := by
  simp only [aggregateForDate, btc_dayRows, btc_keys, btc_keyFilter,
    List.map_cons, List.map_nil, List.cons_append, List.head?_cons]

lemma btc_group_eq : aggregateGroup (some "BTC") btcScenario =
    ⟨some "BTC", some (7/10), some (1/2), some (9/10), 3, some 60, some (23/30)⟩ := by
  simp only [aggregateGroup, btcScenario, AssetAggregation.mk.injEq]
  refine ⟨trivial, ?_, ?_, ?_, by simp, ?_, ?_⟩
  · norm_num [sumScores]
  · norm_num [List.min?, min_def]
  · norm_num [List.max?, max_def]
  · norm_num [sumVolume, volumeTerms, List.filterMap_cons]
  · norm_num [volumeWeighted, sumVolume, volumeTerms, weightTerms, List.filterMap_cons]

/- ----------------------------------------------------------------- -/
/- Claim theorems                                                     -/
/- ----------------------------------------------------------------- -/

/-- C1: for every observation sequence and every target baseline instant,
the selected baseline never has `createdAt` after the target, and when at
least one observation is at-or-before the target, the selection succeeds
and picks the candidate of maximum `createdAt` among them. -/
theorem baselineSelection_sound (snapshots : List SnapshotData) (target : ℤ) :
    (∀ s, findClosestSnapshot snapshots target = some s →
        s ∈ snapshots ∧ s.createdAt ≤ target) ∧
    (∀ u, u ∈ snapshots → u.createdAt ≤ target →
      ∃ s, findClosestSnapshot snapshots target = some s ∧ s ∈ snapshots ∧
        s.createdAt ≤ target ∧
        ∀ v, v ∈ snapshots → v.createdAt ≤ target → v.createdAt ≤ s.createdAt) := by
  constructor
  · intro s h
    exact findClosest_sound snapshots target s h
  · intro u hu hut
    obtain ⟨s, hs, _⟩ := findClosest_max snapshots target u hu hut
    obtain ⟨hmem, hle⟩ := findClosest_sound snapshots target s hs
    refine ⟨s, hs, hmem, hle, ?_⟩
    intro x hx hxt
    obtain ⟨s2, hs2, hxle⟩ := findClosest_max snapshots target x hx hxt
    rw [hs] at hs2
    rwa [← Option.some_inj.mp hs2] at hxle

/-- C1 witness: with observations at 50 and 150 and target 100, a
baseline is selected. -/
theorem baselineSelection_sound_check :
    (findClosestSnapshot [wSnapA, wSnapB] 100).isSome = true := by
  obtain ⟨s, hs, -⟩ :=
    (baselineSelection_sound [wSnapA, wSnapB] 100).2 wSnapA (by simp) (by decide)
  rw [hs]
  rfl

/-- C2 (the code, evaluated at the failing input): on a date with zero
raw records the aggregation is NOT empty — the ungrouped global branch of
the SQL yields one row with count 0 — so `generateForDate` writes that
row and reports `globalRowWritten = true`, against the claim's empty
sequence, no write, and `globalRowWritten = false`. -/
theorem emptyDay_writes_global_row :
    (aggregateForDate [] 0).length = 1 ∧
    (aggregateForDate [] 0).map (fun a => a.assetSymbol) = [none] ∧
    (aggregateForDate [] 0).map (fun a => a.signalCount) = [0] ∧
    (generateForDate [] [] 0).2.globalRowWritten = true ∧
    (generateForDate [] [] 0).2.assetRowsWritten = 0 ∧
    (generateForDate [] [] 0).1 = [(0, aggregateGroup none [])] := by
  decide

/-- C3 (the code, evaluated at the failing input): re-running
`generateForDate` for the same date with unchanged raw data does NOT
reproduce the stored rows — the global row's NULL `asset_symbol` never
conflicts under the (snapshot_date, asset_symbol) unique index, so the
second run appends a duplicate (date, NULL) row instead of overwriting
the existing one; the second run's result record does still equal the
first run's. -/
theorem rerun_duplicates_global_row :
    (generateForDate [] [] 0).1 = [(0, aggregateGroup none [])] ∧
    (generateForDate (generateForDate [] [] 0).1 [] 0).1 =
      [(0, aggregateGroup none []), (0, aggregateGroup none [])] ∧
    (generateForDate (generateForDate [] [] 0).1 [] 0).1 ≠
      (generateForDate [] [] 0).1 ∧
    (generateForDate (generateForDate [] [] 0).1 [] 0).2 =
      (generateForDate [] [] 0).2 := by
  decide

/-- C4: every window result with data comes from a baseline observation
in the input, with `absolutePnl` the 2dp-rounded difference of current
and baseline values, and `percentageChange` equal to 0 when the baseline
value is 0 (no division, no exception) and otherwise the 4dp-rounded
percentage. -/
theorem windowPnl_formula (uid : String) (v : ℚ)
    (snaps : List SnapshotData) (now : ℤ) :
    ∀ w, w ∈ (calculatePortfolioPerformance uid v snaps now).windows →
      w.hasData = true →
      ∃ b, b ∈ snaps ∧ w.baselineValueUsd = some b.totalValueUsd ∧
        w.baselineDate = some b.createdAt ∧
        w.absolutePnl = some (toFixedRound 2 (v - b.totalValueUsd)) ∧
        w.percentageChange =
          some (if b.totalValueUsd = 0 then 0
                else toFixedRound 4 ((v - b.totalValueUsd) / b.totalValueUsd * 100)) := by
  intro w hw hdata
  simp only [calculatePortfolioPerformance, List.mem_map] at hw
  obtain ⟨cfg, -, hcfg⟩ := hw
  subst hcfg
  cases hfc : findClosestSnapshot snaps (calculateBaselineDate now cfg.hours) with
  | none =>
    rw [hfc] at hdata
    exact absurd hdata (by simp [calculateWindowPerformance])
  | some b =>
    refine ⟨b, (findClosest_sound _ _ b hfc).1, rfl, rfl, rfl, ?_⟩
    simp only [calculateWindowPerformance]
    by_cases hb : b.totalValueUsd = 0
    · rw [if_pos hb, if_neg (by simp [hb])]
      rw [toFixedRound_zero]
    · rw [if_neg hb, if_pos hb]

/-- C4 witness: current value 150 against a selected baseline of 100
gives absolutePnl 50 and percentageChange 50. -/
theorem windowPnl_formula_check :
    demoW24.absolutePnl = some 50 ∧ demoW24.percentageChange = some 50 := by
  obtain ⟨b, hb, -, -, hpnl, hpct⟩ :=
    windowPnl_formula "u" 150 [demoBase] 90000000 demoW24
      (by
        simp only [calculatePortfolioPerformance, PERFORMANCE_WINDOWS,
          List.map_cons, List.map_nil]
        exact List.mem_cons_self _ _)
      (by decide)
  have hb2 : b = demoBase := List.mem_singleton.mp hb
  subst hb2
  constructor
  · rw [hpnl]
    simp only [demoBase]
    norm_num
    exact_mod_cast toFixedRound_int 2 50
  · rw [hpct]
    simp only [demoBase]
    rw [if_neg (by norm_num)]
    norm_num
    exact_mod_cast toFixedRound_int 4 50

/-- C5: every window result with `hasData = false` has null
baselineValue, baselineDate, absolutePnl and percentageChange; every
window result carries the current value; and with no observations at all
every configured window has `hasData = false`. -/
theorem windowResults_invariant (uid : String) (v : ℚ)
    (snaps : List SnapshotData) (now : ℤ) :
    ∀ w, w ∈ (calculatePortfolioPerformance uid v snaps now).windows →
      w.currentValueUsd = v ∧
      (w.hasData = false →
        w.absolutePnl = none ∧ w.percentageChange = none ∧
        w.baselineValueUsd = none ∧ w.baselineDate = none) ∧
      (snaps = [] → w.hasData = false) := by
  intro w hw
  simp only [calculatePortfolioPerformance, List.mem_map] at hw
  obtain ⟨cfg, -, hcfg⟩ := hw
  subst hcfg
  cases hfc : findClosestSnapshot snaps (calculateBaselineDate now cfg.hours) with
  | none =>
    refine ⟨rfl, fun _ => ⟨rfl, rfl, rfl, rfl⟩, fun _ => rfl⟩
  | some b =>
    refine ⟨rfl, fun hfalse => ?_, fun hnil => ?_⟩
    · exact absurd hfalse (by simp [calculateWindowPerformance])
    · subst hnil
      simp [findClosestSnapshot] at hfc

/-- C5 witness: the 24h result for an empty observation list carries the
current value 5 and no data. -/
theorem windowResults_invariant_check :
    noDataW24.currentValueUsd = 5 ∧ noDataW24.hasData = false := by
  have h := windowResults_invariant "u" 5 [] 0 noDataW24 (by decide)
  exact ⟨h.1, h.2.2 rfl⟩

/-- C6 counterexample: a "BTC" group with weights 3 and -5 has total
weight -2 — neither 0 nor null — yet its weighted average is null rather
than sum(score*weight)/sum(weight), refuting the claim as stated. -/
theorem weightedAvg_claim_cex :
    (aggregateGroup (some "BTC") cexRows).totalVolume = some (-2) ∧
    (aggregateGroup (some "BTC") cexRows).volumeWeightedSentiment = none ∧
    (aggregateGroup (some "BTC") cexRows).volumeWeightedSentiment ≠
      some ((1 * 3 + 1 * (-5)) / (-2)) := by
  refine ⟨?_, ?_, ?_⟩
  · simp [aggregateGroup, sumVolume, volumeTerms, cexRows]
    norm_num
  · simp [aggregateGroup, volumeWeighted, sumVolume, volumeTerms, cexRows]
    norm_num
  · simp [aggregateGroup, volumeWeighted, sumVolume, volumeTerms, cexRows]
    norm_num

/-- C6 amended: the weighted average is null when the group's total
weight is null, zero, or negative, and equals
sum(score*weight)/sum(weight) (same per-row weights as the total) when
the total weight is strictly positive; the 2024-06-15 "BTC" scenario with
scores 1/2, 7/10, 9/10 and weights 10, 20, 30 yields avg 7/10, min 1/2,
max 9/10, count 3, totalWeight 60 and weightedAvg 23/30. -/
theorem weightedAvg_guard :
    (∀ (k : Option String) (rows : List RawSignal),
      ((aggregateGroup k rows).totalVolume = none →
        (aggregateGroup k rows).volumeWeightedSentiment = none) ∧
      (∀ tv, (aggregateGroup k rows).totalVolume = some tv → tv ≤ 0 →
        (aggregateGroup k rows).volumeWeightedSentiment = none) ∧
      (∀ tv, (aggregateGroup k rows).totalVolume = some tv → 0 < tv →
        (aggregateGroup k rows).volumeWeightedSentiment =
          some ((weightTerms rows).sum / tv))) ∧
    (aggregateForDate btcScenario 1718409600000).head? =
      some ⟨some "BTC", some (7/10), some (1/2), some (9/10), 3, some 60, some (23/30)⟩ := by
  constructor
  · intro k rows
    have hfield : (aggregateGroup k rows).volumeWeightedSentiment = volumeWeighted rows := rfl
    have htotal : (aggregateGroup k rows).totalVolume = sumVolume rows := rfl
    refine ⟨?_, ?_, ?_⟩
    · intro h
      rw [htotal] at h
      rw [hfield]
      unfold volumeWeighted
      rw [h]
    · intro tv h htv
      rw [htotal] at h
      rw [hfield]
      unfold volumeWeighted
      rw [h]
      show (if 0 < tv then some ((weightTerms rows).sum / tv) else none) = none
      rw [if_neg (not_lt.mpr htv)]
    · intro tv h htv
      rw [htotal] at h
      rw [hfield]
      unfold volumeWeighted
      rw [h]
      show (if 0 < tv then some ((weightTerms rows).sum / tv) else none) =
        some ((weightTerms rows).sum / tv)
      rw [if_pos htv]
  · rw [btc_head, btc_group_eq]


/-- C7: with both bounds normalized to UTC midnight, `backfill` with
from > to returns the untouched store and an empty result sequence
(no `generateForDate` call happens, so no reads or writes); otherwise it
yields one result per calendar day from from to to inclusive, in
ascending date order, and in particular exactly one result for
`backfill(D, D)`. -/
theorem runBackfill_range_laws (store : List (ℤ × AssetAggregation))
    (signals : List RawSignal) (fromDate toDate : ℤ) :
    (toUtcMidnight toDate < toUtcMidnight fromDate →
      backfill store signals fromDate toDate = (store, [])) ∧
    (toUtcMidnight fromDate ≤ toUtcMidnight toDate →
      (backfill store signals fromDate toDate).2.map (fun r => r.date) =
        (List.range
            (((toUtcMidnight toDate - toUtcMidnight fromDate) / 86400000).toNat + 1)).map
          (fun i : ℕ => toUtcMidnight fromDate + (i : ℤ) * 86400000)) ∧
    (backfill store signals fromDate fromDate).2.map (fun r => r.date) =
      [toUtcMidnight fromDate] := by
  refine ⟨?_, ?_, ?_⟩
  · intro h
    unfold backfill
    rw [if_neg (by omega)]
    rfl
  · intro h
    unfold backfill
    rw [if_pos h]
    exact backfillAux_dates signals _ store _ (toUtcMidnight_emod fromDate)
  · unfold backfill
    rw [if_pos (le_refl _)]
    rw [backfillAux_dates signals _ store _ (toUtcMidnight_emod fromDate)]
    norm_num [List.range_succ]

/-- C8: when the account's user row does not exist, `createSnapshot`
fails fast with not-found — no fallback, no write; when the user exists
and the ledger fetch fails, the holdings come from the fallback store for
that account and one observation is still persisted and returned. -/
theorem record_notFound_fallback (store : List SavedSnapshot)
    (env : PortfolioEnv) (uid : String) :
    (env.userFound = false → createSnapshot store env uid = (store, none)) ∧
    (env.userFound = true → env.stellar = FetchOutcome.failed →
      createSnapshot store env uid =
        (store ++ [fallbackObservation env uid], some (fallbackObservation env uid))) := by
  constructor
  · intro h
    unfold createSnapshot
    rw [if_pos h]
  · intro h hf
    unfold createSnapshot
    rw [if_neg (by rw [h]; simp), hf]
    rfl

/-- C9: the evaluator is deterministic — identical user, current value,
observation sequence (in the same order) and now give identical outputs,
including the chosen baseline when observations share an `observedAt`. -/
theorem evaluate_deterministic (u1 u2 : String) (v1 v2 : ℚ)
    (l1 l2 : List SnapshotData) (n1 n2 : ℤ)
    (hu : u1 = u2) (hv : v1 = v2) (hl : l1 = l2) (hn : n1 = n2) :
    calculatePortfolioPerformance u1 v1 l1 n1 =
      calculatePortfolioPerformance u2 v2 l2 n2 := by
  subst hu; subst hv; subst hl; subst hn; rfl

/-- C9 witness: two runs on a list with two observations sharing the
same `observedAt` give the same output. -/
theorem evaluate_deterministic_check :
    calculatePortfolioPerformance "u" 150 [tieA, tieB] 200000000 =
      calculatePortfolioPerformance "u" 150 [tieA, tieB] 200000000 :=
  evaluate_deterministic "u" "u" 150 150 [tieA, tieB] [tieA, tieB]
    200000000 200000000 rfl rfl rfl rfl

/-- C10: the baseline search sorts a fresh copy of the caller's array,
so after the call the caller's array is unchanged on the heap, and the
result agrees with the pure `findClosestSnapshot`. -/
theorem findClosest_frame (h : List (List SnapshotData)) (a : ℕ) (t : ℤ)
    (ha : a < h.length) :
    heapGet (findClosestSnapshotInPlace h a t).1 a = heapGet h a ∧
    (findClosestSnapshotInPlace h a t).2 = findClosestSnapshot (heapGet h a) t := by
  unfold findClosestSnapshotInPlace
  by_cases h0 : (heapGet h a).length = 0
  · rw [if_pos h0]
    refine ⟨rfl, ?_⟩
    unfold findClosestSnapshot
    rw [if_pos h0]
  · rw [if_neg h0]
    have hb : a ≠ h.length := Nat.ne_of_lt ha
    constructor
    · show heapGet ((h ++ [heapGet h a]).set h.length _) a = heapGet h a
      unfold heapGet
      rw [List.getElem?_set_ne (Ne.symm hb), List.getElem?_append_left ha]
    · have hv : heapGet (h ++ [heapGet h a]) h.length = heapGet h a :=
        heapGet_append_fresh h _
      have hset : heapGet ((h ++ [heapGet h a]).set h.length
          (sortByCreatedAt (heapGet (h ++ [heapGet h a]) h.length))) h.length =
          sortByCreatedAt (heapGet h a) := by
        unfold heapGet
        rw [List.getElem?_set_eq_of_lt _ (by simp)]
        simp only [Option.getD_some]
        unfold heapGet at hv
        rw [hv]
      show (scanClosest t (none, none)
          (heapGet ((h ++ [heapGet h a]).set h.length
            (sortByCreatedAt (heapGet (h ++ [heapGet h a]) h.length))) h.length)).1 =
        findClosestSnapshot (heapGet h a) t
      rw [hset]
      unfold findClosestSnapshot
      rw [if_neg h0]

/-- C10 witness: a concrete one-array heap, showing the caller's array
is returned unchanged and the result agrees with the pure function. -/
theorem findClosest_frame_check :
    heapGet (findClosestSnapshotInPlace [[wSnapA, wSnapB]] 0 100).1 0 =
      heapGet [[wSnapA, wSnapB]] 0 ∧
    (findClosestSnapshotInPlace [[wSnapA, wSnapB]] 0 100).2 =
      findClosestSnapshot (heapGet [[wSnapA, wSnapB]] 0) 100 :=
  findClosest_frame [[wSnapA, wSnapB]] 0 100 (by decide)
